import Mathlib

/-!
# Verification of the pg_vectorize extension API surface (`src/extension/src/api.rs`)

This file shallowly embeds the operations of `api.rs` and settles the
frozen claims about them.  External collaborators that are not part of the
repository snapshot (the SPI storage layer, the embedding/chat network
clients, the `chunking`, `search`, `guc` and `transformers` modules) are
modelled either as abstract function parameters, or — where the natural
language specification pins their behaviour — as definitions whose doc
comment starts with `Modelled from the spec:`.

Rust `Result<T>` is embedded as `Except VErr T`; Rust code paths that
abort the process (`Vec::remove` on an empty vector, `panic!`) are
embedded through the `Outcome` type, which distinguishes a returned error
value (`err`) from an abnormal termination (`crash`).
-/

namespace PgVectorize

/-- Error taxonomy carried by fallible operations (`anyhow::Result` errors).
The tags follow the spec §7 taxonomy. -/
inductive VErr where
  | modelError (msg : String)
  | schemaError (msg : String)
  | chunkError (msg : String)
  | spiError (msg : String)
  | transformError (msg : String)
  | providerError (msg : String)
deriving DecidableEq, Repr

/-- Outcome of a Rust call, distinguishing a normal error return (`err`,
a `Result::Err`) from an abnormal termination of the process (`crash`,
a Rust panic/abort such as `Vec::remove` on an empty vector or an
explicit `panic!`). -/
inductive Outcome (α : Type) where
  | ok (a : α)
  | err (e : VErr)
  | crash (msg : String)
deriving DecidableEq, Repr

/-- `true` iff the outcome is a normal error return (`Result::Err`). -/
def Outcome.isErr {α : Type} : Outcome α → Bool
  | .err _ => true
  | _ => false

/-- `true` iff the outcome is a successful return. -/
def Outcome.isOkay {α : Type} : Outcome α → Bool
  | .ok _ => true
  | _ => false

/-- A provider/model identifier pair.  Modelled from the spec: `model
(provider+identifier pair)` (§3); `Model::new` parses a string such as
`"<provider>/<model-name>"` into it (the `vectorize_core::types::Model`
source is not part of the snapshot). -/
structure Model where
  source : String
  name : String
deriving DecidableEq, Repr

/-- Rust `i32 as usize` on a 64-bit target: sign-extend, then
reinterpret as an unsigned 64-bit value. -/
def i32ToUsize (i : Int) : Nat :=
  (i % (18446744073709551616 : Int)).toNat

/-! ## Chunker (spec-modelled)

The `chunking::chunk_text` function called by `chunk_table` is not part
of the repository snapshot; it is modelled from the spec §4.1. -/

/-- Fuel-driven worker for the chunker: if the remaining text fits in one
chunk, emit it whole; otherwise emit the first `size` characters and
recurse on the text with the first `size - overlap` characters dropped,
so that consecutive chunks overlap by `overlap` characters. -/
def chunkAux (size overlap : Nat) : Nat → List Char → List (List Char)
  | 0, l => [l]
  | fuel + 1, l =>
    if l.length ≤ size then [l]
    else l.take size :: chunkAux size overlap fuel (l.drop (size - overlap))

/-- Modelled from the spec: `chunking::chunk_text` (missing from the
snapshot; spec §4.1).  `chunk(text, chunk_size > 0, chunk_overlap ∈
[0, chunk_size))` returns the ordered chunks: one chunk equal to the
whole text when `len(text) ≤ chunk_size`, otherwise fixed-size pieces
each overlapping its successor by `chunk_overlap` characters; it fails
with an input-validation error if `chunk_overlap ≥ chunk_size` rather
than looping indefinitely. -/
def chunk_text (text : String) (size overlap : Nat) : Except VErr (List String) :=
  if overlap < size then
    .ok ((chunkAux size overlap (text.data.length + 1) text.data).map String.mk)
  else
    .error (.chunkError "chunk_overlap must be smaller than chunk_size")

/-! ## Transform Service wrappers (`transform_embeddings`, `encode`)

`transform` (the embedding client) and `Model::new` are external: they
are taken as parameters.  `transform` returns a plain `Vec<Vec<f64>>`
(its call sites apply `.remove(0)` directly, with no `?`). -/

/-- `transform_embeddings(input, model_name, api_key)` from `api.rs`:
parse the model, call `transform`, and return the first vector via
`Vec::remove(0)` — which aborts (Rust panic) when the provider returned
zero vectors. -/
def transform_embeddings
    (modelNew : String → Except VErr Model)
    (transform : String → Model → Option String → List (List Float))
    (input : String) (model_name : String) (api_key : Option String) :
    Outcome (List Float) :=
  match modelNew model_name with
  | .error e => .err e
  | .ok m =>
    match transform input m api_key with
    | [] => .crash "removal index (is 0) should be < len (is 0)"
    | v :: _ => .ok v

/-- `encode(input, model, api_key)` from `api.rs`: parse the model, call
`transform`, and return the first vector via `Vec::remove(0)` — which
aborts (Rust panic) when the provider returned zero vectors. -/
def encode
    (modelNew : String → Except VErr Model)
    (transform : String → Model → Option String → List (List Float))
    (input : String) (model : String) (api_key : Option String) :
    Outcome (List Float) :=
  match modelNew model with
  | .error e => .err e
  | .ok m =>
    match transform input m api_key with
    | [] => .crash "removal index (is 0) should be < len (is 0)"
    | v :: _ => .ok v

/-! ## Storage model

The SPI storage collaborator is external; its state is modelled as an
association list from qualified table names (`"{schema}.{table}"`) to
table contents.  A chunk table's rows are `(original_id, chunk)` pairs
(the `id SERIAL` surrogate key is implicit row position). -/

/-- SQL column types occurring in the created chunk tables. -/
inductive SqlType where
  | serial
  | integer
  | text
deriving DecidableEq, Repr

/-- A column of a created table: name, type, and whether it is declared
as the primary key. -/
structure ColumnDef where
  colName : String
  ty : SqlType
  isPrimaryKey : Bool
deriving DecidableEq, Repr

/-- Contents of one stored table: its column layout and its rows.  Rows
of chunk tables are `(original_id, chunk)` pairs. -/
structure StoredTable where
  cols : List ColumnDef
  rows : List (Int × String)
deriving DecidableEq, Repr

/-- Storage state: qualified table name (`schema.table`) to contents. -/
def PgState : Type := List (String × StoredTable)

/-- Look a table up by its qualified name. -/
def findTable : PgState → String → Option StoredTable
  | [], _ => none
  | (n, t) :: rest, key => if n = key then some t else findTable rest key

/-- Append one row to the named table, `none` when the table is absent
(the storage layer would reject the `INSERT`). -/
def addRowTo : PgState → String → Int × String → Option PgState
  | [], _, _ => none
  | (n, t) :: rest, key, r =>
    if n = key then some ((n, ⟨t.cols, t.rows ++ [r]⟩) :: rest)
    else (addRowTo rest key r).map (fun st => (n, t) :: st)

/-- The column layout of the `CREATE TABLE` statement issued by
`create_chunked_table`: `id SERIAL PRIMARY KEY, original_id INTEGER,
chunk TEXT`. -/
def chunkedTableColumns : List ColumnDef :=
  [⟨"id", .serial, true⟩, ⟨"original_id", .integer, false⟩, ⟨"chunk", .text, false⟩]

/-- `create_chunked_table(table_name, columns, schema)` from `api.rs`:
issues `CREATE TABLE {schema}.{table_name} (id SERIAL PRIMARY KEY,
original_id INTEGER, chunk TEXT);` through SPI.  The `columns` argument
is accepted but unused.  The statement carries no `IF NOT EXISTS`, so
the storage layer rejects it when the table already exists (spec §4.2:
fails with a schema error if the table already exists). -/
def create_chunked_table (st : PgState) (table_name : String)
    (columns : List String) (schema : String) : Except VErr PgState :=
  let _ := columns
  let key := schema ++ "." ++ table_name
  if (findTable st key).isSome then
    .error (.schemaError ("relation already exists: " ++ key))
  else
    .ok ((key, ⟨chunkedTableColumns, []⟩) :: st)

/-- `insert_chunk_into_table(table_name, chunk, original_id, schema)`
from `api.rs`: `INSERT INTO {schema}.{table_name} (original_id, chunk)
VALUES ($1, $2);` through SPI. -/
def insert_chunk_into_table (st : PgState) (table_name : String)
    (chunk : String) (original_id : Int) (schema : String) : Except VErr PgState :=
  match addRowTo st (schema ++ "." ++ table_name) (original_id, chunk) with
  | none => .error (.spiError ("relation does not exist: " ++ schema ++ "." ++ table_name))
  | some st' => .ok st'

/-- One row fetched by `fetch_table_rows` (external, `util.rs`): the
source row's primary key (selected as `"primary_key"`) and the fetched
nullable text values, keyed by column name. -/
structure Row where
  primaryKey : Int
  values : List (String × Option String)
deriving DecidableEq, Repr

/-- `row.get(col)`: the nullable text value of the named column. -/
def Row.get (r : Row) (c : String) : Option String :=
  go r.values
where
  /-- Association-list lookup over the fetched values. -/
  go : List (String × Option String) → Option String
    | [] => none
    | (n, v) :: rest => if n = c then v else go rest

/-! ## `chunk_table` -/

/-- Innermost loop of `chunk_table`: insert each chunk of one column
value as a new row of the output table, in chunk order. -/
def insertLoop (output_table schema : String) (original_id : Int) :
    List String → PgState → Except VErr PgState
  | [], st => .ok st
  | c :: cs, st =>
    match insert_chunk_into_table st output_table c original_id schema with
    | .error e => .error e
    | .ok st' => insertLoop output_table schema original_id cs st'

/-- Middle loop of `chunk_table`: for each requested column of one
fetched row, chunk its value when non-null and insert the chunks. -/
def colLoop (output_table schema : String) (size overlap : Nat) (row : Row) :
    List String → PgState → Except VErr PgState
  | [], st => .ok st
  | col :: cols, st =>
    match row.get col with
    | none => colLoop output_table schema size overlap row cols st
    | some text =>
      match chunk_text text size overlap with
      | .error e => .error e
      | .ok chunks =>
        match insertLoop output_table schema row.primaryKey chunks st with
        | .error e => .error e
        | .ok st' => colLoop output_table schema size overlap row cols st'

/-- Outer loop of `chunk_table`: process the fetched rows in order. -/
def rowLoop (output_table schema : String) (columns : List String)
    (size overlap : Nat) : List Row → PgState → Except VErr PgState
  | [], st => .ok st
  | row :: rest, st =>
    match colLoop output_table schema size overlap row columns st with
    | .error e => .error e
    | .ok st' => rowLoop output_table schema columns size overlap rest st'

/-- `chunk_table(input_table, columns, chunk_size, chunk_overlap,
output_table, schema)` from `api.rs`: fetch all rows (modelled by the
`fetched` argument), create the output table, then insert every chunk of
every non-null column value of every row — fetched-row order, then
column order, then chunk order — and return the confirmation message.
`chunk_size`/`chunk_overlap` are `i32` values cast with `as usize`. -/
def chunk_table (fetched : List Row) (st : PgState) (input_table : String)
    (columns : List String) (chunk_size chunk_overlap : Int)
    (output_table schema : String) : Except VErr (PgState × String) :=
  match create_chunked_table st output_table columns schema with
  | .error e => .error e
  | .ok st1 =>
    match rowLoop output_table schema columns (i32ToUsize chunk_size)
        (i32ToUsize chunk_overlap) fetched st1 with
    | .error e => .error e
    | .ok st2 =>
      .ok (st2, "Data from " ++ input_table ++ " successfully chunked into " ++ output_table)

/-- Declarative description of the rows `chunk_table` produces for the
requested columns of one fetched row: for each column in order, the
chunks of its non-null value in order, each paired with the source row's
primary key (a null value, or a chunking failure, contributes nothing —
the operational loop aborts on a chunking failure, so under a successful
run that branch is never taken). -/
def colChunks (size overlap : Nat) (row : Row) : List String → List (Int × String)
  | [] => []
  | col :: cols =>
    (match row.get col with
     | none => []
     | some text =>
       match chunk_text text size overlap with
       | .error _ => []
       | .ok chunks => chunks.map fun c => (row.primaryKey, c)) ++
    colChunks size overlap row cols

/-- Declarative description of all rows `chunk_table` produces:
fetched-row order, then column order, then chunk order. -/
def chunkRowsSpec (size overlap : Nat) (columns : List String) :
    List Row → List (Int × String)
  | [] => []
  | row :: rest =>
    colChunks size overlap row columns ++ chunkRowsSpec size overlap columns rest

/-- A fetched row has a non-null value in at least one of the requested
columns. -/
def hasNonNull (columns : List String) (row : Row) : Bool :=
  columns.any fun col => (row.get col).isSome

/-! ## Job registration (`table`)

`init_table` (`search.rs`) and the enum types (`types.rs`) are not part
of the snapshot: `init_table` is an abstract parameter, the enums are
spec-modelled closed sets (§6, §9). -/

/-- Modelled from the spec: closed set of index distance types
(`types::IndexDist`, not in the snapshot); the default is
`pgv_hnsw_cosine` ("cosine-hnsw"). -/
inductive IndexDist where
  | pgv_hnsw_cosine
  | otherDist (tag : String)
deriving DecidableEq, Repr

/-- Modelled from the spec: closed set of table methods
(`types::TableMethod`, not in the snapshot); the default is `join`. -/
inductive TableMethod where
  | join
  | otherMethod (tag : String)
deriving DecidableEq, Repr

/-- Modelled from the spec: the deprecated `types::SimilarityAlg`
argument of `table` (accepted and ignored). -/
inductive SimilarityAlg where
  | pgv_cosine_similarity
deriving DecidableEq, Repr

/-- Arguments `table` passes to the external `init_table` (the Job
Registrar, spec §4.3): the Job record to validate and persist. -/
structure InitArgs where
  jobName : String
  schemaName : String
  tableName : String
  columns : List String
  primaryKey : String
  updateCol : Option String
  indexDistType : IndexDist
  model : Model
  tableMethod : TableMethod
  schedule : String
deriving DecidableEq, Repr

/-- `table(...)` from `api.rs`: when `chunk_size` is set, first run
`chunk_table` into `"{table}_chunked"` (with `chunk_overlap` defaulting
to 200) and register against the chunked table, otherwise register
against the source table; in both cases parse the transformer model with
`Model::new` and hand the Job to `init_table`. -/
def table (fetched : List Row)
    (modelNew : String → Except VErr Model)
    (initTable : InitArgs → PgState → Except VErr (PgState × String))
    (st : PgState)
    (tbl : String) (columns : List String) (job_name : String)
    (primary_key : String) (schema : String) (update_col : String)
    (index_dist_type : IndexDist) (transformer : String)
    (chunk_size chunk_overlap : Option Int)
    (search_alg : SimilarityAlg) (table_method : TableMethod)
    (schedule : String) : Except VErr (PgState × String) :=
  let _ := search_alg
  let processed : Except VErr (PgState × String) :=
    match chunk_size with
    | some cs =>
      match chunk_table fetched st tbl columns cs (chunk_overlap.getD 200)
          (tbl ++ "_chunked") schema with
      | .error e => .error e
      | .ok (st1, _) => .ok (st1, tbl ++ "_chunked")
    | none => .ok (st, tbl)
  match processed with
  | .error e => .error e
  | .ok (st1, processed_table) =>
    match modelNew transformer with
    | .error e => .error e
    | .ok m =>
      initTable
        ⟨job_name, schema, processed_table, columns, primary_key,
          some update_col, index_dist_type, m, table_method, schedule⟩ st1

/-! ## `generate` and `env_interpolate_guc` -/

/-- The rendered prompt handed to the chat completion client
(`chat::types::RenderedPrompt`). -/
structure RenderedPrompt where
  sys_rendered : String
  user_rendered : String
deriving DecidableEq, Repr

/-- Modelled from the spec: the runtime configuration object returned by
`get_guc_configs` (`guc.rs`, not in the snapshot), "carrying endpoint,
api key, and model parameters" (§6).  Only `api_key` is touched by the
code under verification. -/
structure GucConfigs where
  api_key : Option String
  endpoint : Option String
deriving DecidableEq, Repr

/-- `generate(input, model, api_key)` from `api.rs`: parse the model,
build a `RenderedPrompt` with empty `sys_rendered` and the input verbatim
as `user_rendered`, resolve the provider configuration, overwrite its
`api_key` when one was given, and invoke the chat completion client. -/
def generate
    (modelNew : String → Except VErr Model)
    (getGucConfigs : String → GucConfigs)
    (callChatCompletions : RenderedPrompt → Model → GucConfigs → Except VErr String)
    (input : String) (model : String) (api_key : Option String) :
    Except VErr String :=
  match modelNew model with
  | .error e => .error e
  | .ok m =>
    let prompt : RenderedPrompt := ⟨"", input⟩
    let guc_configs := getGucConfigs m.source
    let guc_configs :=
      match api_key with
      | some k => { guc_configs with api_key := some k }
      | none => guc_configs
    callChatCompletions prompt m guc_configs

/-- `env_interpolate_guc(guc_name)` from `api.rs`: read the setting via
SPI (`SELECT current_setting($1)`), abort with
`panic!("no value set for guc: {guc_name}")` when the query yields no
value, and otherwise expand embedded variable references with the
external `env_interpolate_string`.  SPI-level failures propagate as
error returns through `?`. -/
def env_interpolate_guc
    (currentSetting : String → Except VErr (Option String))
    (envInterpolateString : String → Except VErr String)
    (guc_name : String) : Outcome String :=
  match currentSetting guc_name with
  | .error e => .err e
  | .ok none => .crash ("no value set for guc: " ++ guc_name)
  | .ok (some g) =>
    match envInterpolateString g with
    | .error e => .err e
    | .ok s => .ok s

/-! ## Concrete instantiations of the external collaborators

Used to evaluate the operations on closed inputs. -/

/-- A model parser that accepts every identifier (provider `"openai"`). -/
def okModelNew : String → Except VErr Model := fun s => .ok ⟨"openai", s⟩

/-- An embedding client that returns zero vectors. -/
def emptyTransform : String → Model → Option String → List (List Float) :=
  fun _ _ _ => []

/-- An embedding client that returns exactly one vector. -/
def oneTransform : String → Model → Option String → List (List Float) :=
  fun _ _ _ => [[0.5, 1.5]]

/-- A job registrar that records the table name it was asked to index. -/
def echoInitTable : InitArgs → PgState → Except VErr (PgState × String) :=
  fun a st => .ok (st, a.tableName)

/-- A runtime-configuration resolver with no stored credentials. -/
def constGucConfigs : String → GucConfigs := fun _ => ⟨none, none⟩

/-- A chat client that echoes the user-rendered prompt. -/
def echoChat : RenderedPrompt → Model → GucConfigs → Except VErr String :=
  fun p _ _ => .ok p.user_rendered

/-- A settings reader for which no value is set. -/
def noSetting : String → Except VErr (Option String) := fun _ => .ok none

/-- A settings reader that resolves every name to `"svc-url"`. -/
def someSetting : String → Except VErr (Option String) := fun _ => .ok (some "svc-url")

/-- A variable-reference expander that leaves its input unchanged. -/
def idInterp : String → Except VErr String := fun s => .ok s

/-- One fetched source row, primary key 7, one text column. -/
def sampleRows : List Row := [⟨7, [("body", some "abcdefghij")]⟩]

/-- One fetched source row with a short text value. -/
def sampleRowsShort : List Row := [⟨7, [("body", some "abc")]⟩]

/-- Two fetched rows over two columns, each with one null value. -/
def sampleRows2 : List Row :=
  [⟨1, [("a", some "abcdef"), ("b", none)]⟩, ⟨2, [("a", none), ("b", some "xy")]⟩]

/-- The column layout claim C4 asserts for the created chunk table:
`original_id` typed to match the source table's primary-key type. -/
def claimedChunkedColumns (sourcePkTy : SqlType) : List ColumnDef :=
  [⟨"id", .serial, true⟩, ⟨"original_id", sourcePkTy, false⟩, ⟨"chunk", .text, false⟩]

/-! ## Theorems

First, lemmas relating the operational insertion loops of `chunk_table`
to the declarative row description `chunkRowsSpec`. -/

/-- The chunker worker never produces an empty chunk list. -/
theorem chunkAux_ne_nil (size overlap fuel : Nat) (l : List Char) :
    chunkAux size overlap fuel l ≠ [] := by
  cases fuel with
  | zero => simp [chunkAux]
  | succ n =>
    simp only [chunkAux]
    split <;> simp

/-- A successful chunking produces at least one chunk. -/
theorem chunk_text_ok_ne_nil {t : String} {S O : Nat} {cs : List String}
    (h : chunk_text t S O = .ok cs) : cs ≠ [] := by
  unfold chunk_text at h
  split at h
  · injection h with h'
    intro hc
    subst h'
    exact chunkAux_ne_nil S O (t.data.length + 1) t.data (List.map_eq_nil_iff.mp hc)
  · cases h

/-- Appending a row to a present table succeeds and extends exactly that
table's row list. -/
theorem addRowTo_find {st : PgState} {key : String} {T : StoredTable} (r : Int × String)
    (h : findTable st key = some T) :
    ∃ st', addRowTo st key r = some st' ∧
      findTable st' key = some ⟨T.cols, T.rows ++ [r]⟩ := by
  induction st with
  | nil => simp [findTable] at h
  | cons p rest ih =>
    obtain ⟨n, t⟩ := p
    by_cases hn : n = key
    · subst hn
      simp [findTable] at h
      subst h
      refine ⟨(n, ⟨t.cols, t.rows ++ [r]⟩) :: rest, ?_, ?_⟩
      · simp [addRowTo]
      · simp [findTable]
    · simp only [findTable, if_neg hn] at h
      obtain ⟨st', h1, h2⟩ := ih h
      exact ⟨(n, t) :: st', by simp [addRowTo, hn, h1], by simp [findTable, hn, h2]⟩

/-- The innermost insertion loop succeeds on a present output table and
appends the chunks, in chunk order, each tagged with the original id. -/
theorem insertLoop_find (out schema : String) (oid : Int) (chunks : List String) :
    ∀ (st : PgState) (T : StoredTable), findTable st (schema ++ "." ++ out) = some T →
    ∃ st', insertLoop out schema oid chunks st = .ok st' ∧
      findTable st' (schema ++ "." ++ out) =
        some ⟨T.cols, T.rows ++ chunks.map (fun c => (oid, c))⟩ := by
  induction chunks with
  | nil =>
    intro st T h
    exact ⟨st, rfl, by simpa using h⟩
  | cons c cs ih =>
    intro st T h
    obtain ⟨st1, h1, h2⟩ := addRowTo_find (oid, c) h
    obtain ⟨st', h3, h4⟩ := ih st1 _ h2
    refine ⟨st', ?_, ?_⟩
    · simp [insertLoop, insert_chunk_into_table, h1, h3]
    · simpa [List.append_assoc] using h4

/-- A successful column loop extends the output table by exactly the
declarative per-row chunk rows, in column order then chunk order. -/
theorem colLoop_ok_find (out schema : String) (S O : Nat) (row : Row) (cols : List String) :
    ∀ (st st' : PgState) (T : StoredTable),
    colLoop out schema S O row cols st = .ok st' →
    findTable st (schema ++ "." ++ out) = some T →
    findTable st' (schema ++ "." ++ out) =
      some ⟨T.cols, T.rows ++ colChunks S O row cols⟩ := by
  induction cols with
  | nil =>
    intro st st' T h hf
    simp only [colLoop] at h
    injection h with h
    subst h
    simpa [colChunks] using hf
  | cons c cs ih =>
    intro st st' T h hf
    simp only [colLoop] at h
    split at h
    next hg =>
      simpa [colChunks, hg] using ih st st' T h hf
    next text hg =>
      split at h
      next e hct => cases h
      next chunks hct =>
        split at h
        next e hil => cases h
        next st1 hil =>
          obtain ⟨st1', h1, h2⟩ := insertLoop_find out schema row.primaryKey chunks st T hf
          rw [hil] at h1
          injection h1 with h1
          subst h1
          have hrec := ih st1 st' _ h h2
          simpa [colChunks, hg, hct, List.append_assoc] using hrec

/-- A successful row loop extends the output table by exactly the
declarative chunk rows: fetched-row order, then column order, then chunk
order. -/
theorem rowLoop_ok_find (out schema : String) (cols : List String) (S O : Nat)
    (rows : List Row) :
    ∀ (st st' : PgState) (T : StoredTable),
    rowLoop out schema cols S O rows st = .ok st' →
    findTable st (schema ++ "." ++ out) = some T →
    findTable st' (schema ++ "." ++ out) =
      some ⟨T.cols, T.rows ++ chunkRowsSpec S O cols rows⟩ := by
  induction rows with
  | nil =>
    intro st st' T h hf
    simp only [rowLoop] at h
    injection h with h
    subst h
    simpa [chunkRowsSpec] using hf
  | cons row rest ih =>
    intro st st' T h hf
    simp only [rowLoop] at h
    split at h
    next e hcl => cases h
    next st1 hcl =>
      have h1 := colLoop_ok_find out schema S O row cols st st1 T hcl hf
      have hrec := ih st1 st' _ h h1
      simpa [chunkRowsSpec, List.append_assoc] using hrec

/-- A successful `chunk_table` run leaves the output table holding
exactly the declarative chunk rows, and returns the confirmation
message built from the source and destination table names. -/
theorem chunk_table_ok_spec (fetched : List Row) (st : PgState) (input : String)
    (cols : List String) (S O : Int) (out schema : String) (st' : PgState) (msg : String)
    (h : chunk_table fetched st input cols S O out schema = .ok (st', msg)) :
    findTable st' (schema ++ "." ++ out) =
      some ⟨chunkedTableColumns, chunkRowsSpec (i32ToUsize S) (i32ToUsize O) cols fetched⟩ ∧
    msg = "Data from " ++ input ++ " successfully chunked into " ++ out := by
  unfold chunk_table at h
  split at h
  next e hc => cases h
  next st1 hc =>
    split at h
    next e hr => cases h
    next st2 hr =>
      injection h with h
      rw [Prod.mk.injEq] at h
      obtain ⟨hst, hmsg⟩ := h
      subst hst
      simp only [create_chunked_table] at hc
      split at hc
      · cases hc
      · injection hc with hc1
        subst hc1
        have hfind : findTable ((schema ++ "." ++ out, ⟨chunkedTableColumns, []⟩) :: st)
            (schema ++ "." ++ out) = some ⟨chunkedTableColumns, []⟩ := by
          simp [findTable]
        have hmain := rowLoop_ok_find out schema cols (i32ToUsize S) (i32ToUsize O)
          fetched _ st2 _ hr hfind
        exact ⟨by simpa using hmain, hmsg.symm⟩

/-- Claim C1 (as stated, refuted): with a provider returning zero
vectors, `encode` aborts abnormally (the Rust `Vec::remove(0)` panic);
it does not return an error outcome. -/
theorem c1_counterexample :
    emptyTransform "hello" ⟨"openai", "text-embedding-ada-002"⟩ none = [] ∧
    encode okModelNew emptyTransform "hello" "text-embedding-ada-002" none =
      .crash "removal index (is 0) should be < len (is 0)" ∧
    (encode okModelNew emptyTransform "hello" "text-embedding-ada-002" none).isErr = false :=
  ⟨rfl, rfl, rfl⟩

/-- Claim C1 (amended): for every input and model, `encode` and
`transform_embeddings` return exactly one embedding vector (the first
one returned by the provider) on success; when the provider returns zero
vectors they abort abnormally (Rust panic in `Vec::remove(0)`) — they do
not silently substitute a default, and they do not return an error
outcome. -/
theorem c1_encode_zero_vectors
    (mN : String → Except VErr Model)
    (tf : String → Model → Option String → List (List Float))
    (input model : String) (key : Option String) (m : Model)
    (hm : mN model = .ok m) :
    (tf input m key = [] →
      encode mN tf input model key = .crash "removal index (is 0) should be < len (is 0)" ∧
      transform_embeddings mN tf input model key =
        .crash "removal index (is 0) should be < len (is 0)") ∧
    (∀ v rest, tf input m key = v :: rest →
      encode mN tf input model key = .ok v ∧
      transform_embeddings mN tf input model key = .ok v) := by
  constructor
  · intro h0
    constructor
    · simp only [encode, hm, h0]
    · simp only [transform_embeddings, hm, h0]
  · intro v rest h1
    constructor
    · simp only [encode, hm, h1]
    · simp only [transform_embeddings, hm, h1]

/-- Witness for C1 (amended), at concrete providers: the zero-vector
provider aborts, the one-vector provider returns that vector. -/
theorem c1_witness :
    encode okModelNew emptyTransform "a" "m" none =
      .crash "removal index (is 0) should be < len (is 0)" ∧
    encode okModelNew oneTransform "a" "m" none = .ok [0.5, 1.5] ∧
    transform_embeddings okModelNew oneTransform "a" "m" none = .ok [0.5, 1.5] :=
  ⟨((c1_encode_zero_vectors okModelNew emptyTransform "a" "m" none ⟨"openai", "m"⟩ rfl).1 rfl).1,
   ((c1_encode_zero_vectors okModelNew oneTransform "a" "m" none ⟨"openai", "m"⟩ rfl).2
      [0.5, 1.5] [] rfl).1,
   ((c1_encode_zero_vectors okModelNew oneTransform "a" "m" none ⟨"openai", "m"⟩ rfl).2
      [0.5, 1.5] [] rfl).2⟩

/-- Claim C7: `encode` and `transform_embeddings` are equivalent — for
every model parser, embedding client, input, model name and api key they
return the same outcome. -/
theorem c7_encode_equiv
    (mN : String → Except VErr Model)
    (tf : String → Model → Option String → List (List Float))
    (input model : String) (key : Option String) :
    encode mN tf input model key = transform_embeddings mN tf input model key := rfl

/-- Claim C8 (as stated, refuted): when no value is set for the named
setting, `env_interpolate_guc` aborts abnormally (the `panic!` in the
`unwrap_or_else`); it does not return an error outcome. -/
theorem c8_counterexample :
    env_interpolate_guc noSetting idInterp "vectorize.embedding_service_url" =
      .crash "no value set for guc: vectorize.embedding_service_url" ∧
    (env_interpolate_guc noSetting idInterp "vectorize.embedding_service_url").isErr = false :=
  ⟨rfl, rfl⟩

/-- Claim C8 (amended): `env_interpolate_guc(name)` resolves the named
runtime configuration value and expands embedded variable references
inside it; when no value is set for that name it aborts abnormally with
`panic!("no value set for guc: {name}")` rather than returning an error
outcome; a failure of the settings query itself propagates as an error
outcome. -/
theorem c8_env_interpolate_guc_unset
    (cs : String → Except VErr (Option String))
    (eis : String → Except VErr String) (gucName : String) :
    (cs gucName = .ok none →
      env_interpolate_guc cs eis gucName = .crash ("no value set for guc: " ++ gucName)) ∧
    (∀ g, cs gucName = .ok (some g) →
      env_interpolate_guc cs eis gucName =
        (match eis g with | .error e => .err e | .ok s => .ok s)) ∧
    (∀ e, cs gucName = .error e → env_interpolate_guc cs eis gucName = .err e) := by
  refine ⟨fun h => ?_, fun g h => ?_, fun e h => ?_⟩ <;>
    simp only [env_interpolate_guc, h]

/-- Witness for C8 (amended): unset aborts, set interpolates. -/
theorem c8_witness :
    env_interpolate_guc noSetting idInterp "vectorize.openai_key" =
      .crash "no value set for guc: vectorize.openai_key" ∧
    env_interpolate_guc someSetting idInterp "vectorize.openai_key" = .ok "svc-url" :=
  ⟨(c8_env_interpolate_guc_unset noSetting idInterp "vectorize.openai_key").1 rfl,
   (c8_env_interpolate_guc_unset someSetting idInterp "vectorize.openai_key").2.1 "svc-url" rfl⟩

/-- Claim C9: `generate(input, model, api_key)` invokes the chat
completion client with the prompt `{sys_rendered := "", user_rendered :=
input}` (the input verbatim, even when empty — the `RenderedPrompt`
non-emptiness invariant is not enforced) and the resolved configuration
(explicit api key, when given, overriding the ambient one). -/
theorem c9_generate_prompt
    (mN : String → Except VErr Model)
    (gg : String → GucConfigs)
    (cc : RenderedPrompt → Model → GucConfigs → Except VErr String)
    (input model : String) (key : Option String) (m : Model)
    (hm : mN model = .ok m) :
    generate mN gg cc input model key =
      cc ⟨"", input⟩ m
        (match key with
         | some k => { gg m.source with api_key := some k }
         | none => gg m.source) := by
  cases key <;> simp only [generate, hm]

/-- Witness for C9 at a concrete client and the empty input: the client
is still invoked, with an empty `user_rendered`. -/
theorem c9_witness :
    generate okModelNew constGucConfigs echoChat "" "my-model" none = .ok "" :=
  (c9_generate_prompt okModelNew constGucConfigs echoChat "" "my-model" none
    ⟨"openai", "my-model"⟩ rfl).trans rfl

/-- Claim C5: `chunk_table` inserts the chunk rows into the output table
in strict order — fetched-row order first, then column order within each
row, then chunk order within each column value, with no reordering — and
on success returns a confirmation message naming both the source table
and the destination table. -/
theorem c5_insertion_order (fetched : List Row) (st : PgState) (input : String)
    (cols : List String) (S O : Int) (out schema : String) (st' : PgState) (msg : String)
    (h : chunk_table fetched st input cols S O out schema = .ok (st', msg)) :
    findTable st' (schema ++ "." ++ out) =
      some ⟨chunkedTableColumns, chunkRowsSpec (i32ToUsize S) (i32ToUsize O) cols fetched⟩ ∧
    msg = "Data from " ++ input ++ " successfully chunked into " ++ out :=
  chunk_table_ok_spec fetched st input cols S O out schema st' msg h

/-- Witness for C5: a concrete run over two rows and two columns with
one null value each; the output rows appear in row-column-chunk order
and the message names `src` and `out`. -/
theorem c5_witness :
    findTable
        [("public.out", ⟨chunkedTableColumns, [(1, "abcd"), (1, "cdef"), (2, "xy")]⟩)]
        ("public" ++ "." ++ "out") =
      some ⟨chunkedTableColumns,
        chunkRowsSpec (i32ToUsize 4) (i32ToUsize 2) ["a", "b"] sampleRows2⟩ ∧
    "Data from src successfully chunked into out" =
      "Data from " ++ "src" ++ " successfully chunked into " ++ "out" :=
  c5_insertion_order sampleRows2 [] "src" ["a", "b"] 4 2 "out" "public"
    [("public.out", ⟨chunkedTableColumns, [(1, "abcd"), (1, "cdef"), (2, "xy")]⟩)]
    "Data from src successfully chunked into out" rfl

/-! ### Machinery for C3: which original ids reach the output table -/

/-- Under a successful column loop, every chunking of an encountered
non-null value succeeded. -/
theorem colLoop_ok_chunkSucc (out schema : String) (S O : Nat) (row : Row)
    (cols : List String) :
    ∀ st st', colLoop out schema S O row cols st = .ok st' →
    ∀ col ∈ cols, ∀ text, row.get col = some text →
      ∃ cs, chunk_text text S O = .ok cs := by
  induction cols with
  | nil =>
    intro st st' h col hc
    cases hc
  | cons c cs ih =>
    intro st st' h col hcol text hget
    simp only [colLoop] at h
    split at h
    next hg =>
      rcases List.mem_cons.mp hcol with rfl | hcol'
      · rw [hget] at hg; cases hg
      · exact ih st st' h col hcol' text hget
    next t hg =>
      split at h
      next e hct => cases h
      next chunks hct =>
        split at h
        next e hil => cases h
        next st1 hil =>
          rcases List.mem_cons.mp hcol with rfl | hcol'
          · rw [hget] at hg
            injection hg with hg
            subst hg
            exact ⟨chunks, hct⟩
          · exact ih st1 st' h col hcol' text hget

/-- Under a successful row loop, every chunking of an encountered
non-null value succeeded. -/
theorem rowLoop_ok_chunkSucc (out schema : String) (cols : List String) (S O : Nat)
    (rows : List Row) :
    ∀ st st', rowLoop out schema cols S O rows st = .ok st' →
    ∀ row ∈ rows, ∀ col ∈ cols, ∀ text, row.get col = some text →
      ∃ cs, chunk_text text S O = .ok cs := by
  induction rows with
  | nil =>
    intro st st' h row hr
    cases hr
  | cons r rs ih =>
    intro st st' h row hrow col hcol text hget
    simp only [rowLoop] at h
    split at h
    next e hcl => cases h
    next st1 hcl =>
      rcases List.mem_cons.mp hrow with rfl | hrow'
      · exact colLoop_ok_chunkSucc out schema S O row cols st st1 hcl col hcol text hget
      · exact ih st1 st' h row hrow' col hcol text hget

/-- Under a successful `chunk_table` run, every chunking of an
encountered non-null value succeeded. -/
theorem chunk_table_ok_chunkSucc (fetched : List Row) (st : PgState) (input : String)
    (cols : List String) (S O : Int) (out schema : String) (st' : PgState) (msg : String)
    (h : chunk_table fetched st input cols S O out schema = .ok (st', msg)) :
    ∀ row ∈ fetched, ∀ col ∈ cols, ∀ text, row.get col = some text →
      ∃ cs, chunk_text text (i32ToUsize S) (i32ToUsize O) = .ok cs := by
  unfold chunk_table at h
  split at h
  next e hc => cases h
  next st1 hc =>
    split at h
    next e hr => cases h
    next st2 hr =>
      exact rowLoop_ok_chunkSucc out schema cols (i32ToUsize S) (i32ToUsize O)
        fetched st1 st2 hr

/-- Mapping a constant first component over a non-empty list and
collecting the first components yields the singleton finset. -/
theorem constPair_map_fst_toFinset (k : Int) (l : List String) (hl : l ≠ []) :
    ((l.map fun c => (k, c)).map Prod.fst).toFinset = {k} := by
  induction l with
  | nil => cases hl rfl
  | cons a as ih =>
    cases as with
    | nil => simp
    | cons b bs =>
      have := ih (by simp)
      simp only [List.map_cons, List.toFinset_cons] at this ⊢
      rw [this]
      simp

/-- The first components of one row's declarative chunk rows form the
singleton of its primary key when some requested column is non-null, and
the empty finset otherwise. -/
theorem colChunks_toFinset (S O : Nat) (row : Row) (cols : List String)
    (hsucc : ∀ col ∈ cols, ∀ text, row.get col = some text →
      ∃ cs, chunk_text text S O = .ok cs) :
    ((colChunks S O row cols).map Prod.fst).toFinset =
      if hasNonNull cols row then {row.primaryKey} else ∅ := by
  induction cols with
  | nil => simp [colChunks, hasNonNull]
  | cons c cs ih =>
    have ih' := ih fun col hc text hg => hsucc col (List.mem_cons_of_mem c hc) text hg
    cases hg : row.get c with
    | none =>
      simp only [colChunks, hg, List.nil_append]
      rw [ih']
      simp [hasNonNull, hg]
    | some text =>
      obtain ⟨chunks, hct⟩ := hsucc c (List.mem_cons_self c cs) text hg
      have hne : chunks ≠ [] := chunk_text_ok_ne_nil hct
      simp only [colChunks, hg, hct, List.map_append, List.toFinset_append]
      rw [constPair_map_fst_toFinset row.primaryKey chunks hne, ih']
      have hnn : hasNonNull (c :: cs) row = true := by simp [hasNonNull, hg]
      rw [hnn]
      by_cases hyn : hasNonNull cs row <;> simp [hyn]

/-- The distinct first components of the declarative chunk rows are
exactly the primary keys of the fetched rows with a non-null value in
some requested column. -/
theorem chunkRowsSpec_toFinset (S O : Nat) (cols : List String) (rows : List Row)
    (hsucc : ∀ row ∈ rows, ∀ col ∈ cols, ∀ text, row.get col = some text →
      ∃ cs, chunk_text text S O = .ok cs) :
    ((chunkRowsSpec S O cols rows).map Prod.fst).toFinset =
      ((rows.filter (hasNonNull cols)).map Row.primaryKey).toFinset := by
  induction rows with
  | nil => simp [chunkRowsSpec]
  | cons r rs ih =>
    have ih' := ih fun row hr => hsucc row (List.mem_cons_of_mem r hr)
    have hcol := colChunks_toFinset S O r cols
      fun col hc text hg => hsucc r (List.mem_cons_self r rs) col hc text hg
    simp only [chunkRowsSpec, List.map_append, List.toFinset_append, hcol, ih',
      List.filter_cons]
    by_cases hr : hasNonNull cols r
    · simp [hr, Finset.insert_eq]
    · simp [hr]

/-- Claim C3 (as stated, refuted): a source row whose text yields several
chunks contributes its primary key several times, so the multiset of
`original_id` values differs from the set of primary keys of non-null
source rows. -/
theorem c3_counterexample :
    chunk_table sampleRows [] "src" ["body"] 4 2 "out" "public" =
      .ok ([("public.out",
          ⟨chunkedTableColumns, [(7, "abcd"), (7, "cdef"), (7, "efgh"), (7, "ghij")]⟩)],
        "Data from src successfully chunked into out") ∧
    (sampleRows.filter (hasNonNull ["body"])).map Row.primaryKey = [7] ∧
    ¬ ((↑(([(7, "abcd"), (7, "cdef"), (7, "efgh"), (7, "ghij")] : List (Int × String)).map
        Prod.fst) : Multiset Int) = ({7} : Multiset Int)) :=
  ⟨rfl, rfl, by decide⟩

/-- Claim C3 (amended): after a successful `chunk_table`, the set of
distinct `original_id` values stored in the output table equals the set
of primary keys of the fetched source rows that had a non-null value in
at least one chunked column (null values contribute no chunk rows; a
multi-chunk value contributes its key several times). -/
theorem c3_original_ids (fetched : List Row) (st : PgState) (input : String)
    (cols : List String) (S O : Int) (out schema : String) (st' : PgState) (msg : String)
    (h : chunk_table fetched st input cols S O out schema = .ok (st', msg)) :
    ∃ T, findTable st' (schema ++ "." ++ out) = some T ∧
      (T.rows.map Prod.fst).toFinset =
        ((fetched.filter (hasNonNull cols)).map Row.primaryKey).toFinset := by
  obtain ⟨hfind, -⟩ := chunk_table_ok_spec fetched st input cols S O out schema st' msg h
  refine ⟨_, hfind, ?_⟩
  exact chunkRowsSpec_toFinset (i32ToUsize S) (i32ToUsize O) cols fetched
    (chunk_table_ok_chunkSucc fetched st input cols S O out schema st' msg h)

/-- Witness for C3 (amended) at a concrete successful run. -/
theorem c3_witness :
    ∃ T, findTable
        [("public.out",
          ⟨chunkedTableColumns, [(7, "abcd"), (7, "cdef"), (7, "efgh"), (7, "ghij")]⟩)]
        ("public" ++ "." ++ "out") = some T ∧
      (T.rows.map Prod.fst).toFinset =
        ((sampleRows.filter (hasNonNull ["body"])).map Row.primaryKey).toFinset :=
  c3_original_ids sampleRows [] "src" ["body"] 4 2 "out" "public"
    [("public.out",
      ⟨chunkedTableColumns, [(7, "abcd"), (7, "cdef"), (7, "efgh"), (7, "ghij")]⟩)]
    "Data from src successfully chunked into out" rfl

/-! ### Machinery for C2: behaviour when `chunk_overlap ≥ chunk_size` -/

/-- A column loop over columns that are all null inserts nothing and
succeeds. -/
theorem colLoop_allNone (out schema : String) (S O : Nat) (row : Row)
    (cols : List String) :
    ∀ st, (∀ col ∈ cols, row.get col = none) →
    colLoop out schema S O row cols st = .ok st := by
  induction cols with
  | nil => intro st _; rfl
  | cons c cs ih =>
    intro st h
    simp only [colLoop, h c (List.mem_cons_self c cs)]
    exact ih st fun col hc => h col (List.mem_cons_of_mem c hc)

/-- When every chunking fails, a column loop meeting a non-null value
fails with that error. -/
theorem colLoop_err_of_all (out schema : String) (S O : Nat) (row : Row) (e : VErr)
    (hall : ∀ text, chunk_text text S O = .error e) (cols : List String) :
    ∀ st, (∃ col ∈ cols, (row.get col).isSome = true) →
    colLoop out schema S O row cols st = .error e := by
  induction cols with
  | nil =>
    rintro st ⟨col, hc, -⟩
    cases hc
  | cons c cs ih =>
    rintro st ⟨col, hcol, hsome⟩
    cases hg : row.get c with
    | some text => simp only [colLoop, hg, hall text]
    | none =>
      simp only [colLoop, hg]
      refine ih st ⟨col, ?_, hsome⟩
      rcases List.mem_cons.mp hcol with rfl | h'
      · rw [hg] at hsome; cases hsome
      · exact h'

/-- When every chunking fails, the row loop fails with that error as
soon as some fetched row has a non-null value in a requested column. -/
theorem rowLoop_err_of_all (out schema : String) (cols : List String) (S O : Nat)
    (e : VErr) (hall : ∀ text, chunk_text text S O = .error e) (rows : List Row) :
    ∀ st, (∃ row ∈ rows, ∃ col ∈ cols, (row.get col).isSome = true) →
    rowLoop out schema cols S O rows st = .error e := by
  induction rows with
  | nil =>
    rintro st ⟨row, hr, -⟩
    cases hr
  | cons r rs ih =>
    rintro st ⟨row, hrow, col, hcol, hsome⟩
    by_cases hr : ∃ col ∈ cols, (r.get col).isSome = true
    · simp only [rowLoop, colLoop_err_of_all out schema S O r e hall cols st hr]
    · have hnone : ∀ col ∈ cols, r.get col = none := by
        intro col hc
        cases hg : r.get col with
        | none => rfl
        | some t => exact absurd ⟨col, hc, by rw [hg]; rfl⟩ hr
      simp only [rowLoop, colLoop_allNone out schema S O r cols st hnone]
      rcases List.mem_cons.mp hrow with rfl | hrow'
      · rw [hnone col hcol] at hsome; cases hsome
      · exact ih st ⟨row, hrow', col, hcol, hsome⟩

/-- The `i32 as usize` cast preserves order on `i32` values that are
nonnegative. -/
theorem i32ToUsize_le_of_le {S O : Int} (h0 : 0 ≤ S) (hSO : S ≤ O)
    (hO : O < 2147483648) : i32ToUsize S ≤ i32ToUsize O := by
  unfold i32ToUsize
  omega

/-- Claim C2 (as stated, refuted): at `chunk_size = -1`,
`chunk_overlap = 0` we have `chunk_overlap ≥ chunk_size`, yet the
`i32 as usize` cast turns the chunk size into `2^64 - 1`, the chunker
validates successfully, and `chunk_table` succeeds on a fetched non-null
text instead of failing with an input-validation error. -/
theorem c2_counterexample :
    ((-1 : Int) ≤ 0) ∧
    Row.get ⟨7, [("body", some "abc")]⟩ "body" = some "abc" ∧
    chunk_table sampleRowsShort [] "src" ["body"] (-1) 0 "out" "public" =
      .ok ([("public.out", ⟨chunkedTableColumns, [(7, "abc")]⟩)],
        "Data from src successfully chunked into out") :=
  ⟨by norm_num, rfl, rfl⟩

/-- Claim C2 (amended): for every text and all `i32` parameters with
`0 ≤ chunk_size ≤ chunk_overlap`, the chunking operation fails with an
input-validation error rather than looping indefinitely or producing
unbounded output, and `chunk_table` (invoked on a fresh output table
with at least one non-null fetched value) propagates exactly that error.
(The restriction to nonnegative `chunk_size` is forced by the
`i32 as usize` cast: a negative `chunk_size` with nonnegative
`chunk_overlap` sign-extends to an enormous chunk size and succeeds.) -/
theorem c2_overlap_validation (S O : Int) (h0 : 0 ≤ S) (hSO : S ≤ O)
    (hO : O < 2147483648) :
    (∀ text, chunk_text text (i32ToUsize S) (i32ToUsize O) =
      .error (.chunkError "chunk_overlap must be smaller than chunk_size")) ∧
    (∀ (fetched : List Row) (st : PgState) (input : String) (cols : List String)
      (out schema : String),
      findTable st (schema ++ "." ++ out) = none →
      (∃ row ∈ fetched, ∃ col ∈ cols, (row.get col).isSome = true) →
      chunk_table fetched st input cols S O out schema =
        .error (.chunkError "chunk_overlap must be smaller than chunk_size")) := by
  have hle := i32ToUsize_le_of_le h0 hSO hO
  have herr : ∀ text, chunk_text text (i32ToUsize S) (i32ToUsize O) =
      .error (.chunkError "chunk_overlap must be smaller than chunk_size") := by
    intro text
    unfold chunk_text
    rw [if_neg (by omega)]
  refine ⟨herr, ?_⟩
  intro fetched st input cols out schema hfind hex
  simp only [chunk_table, create_chunked_table, hfind, Option.isSome_none,
    Bool.false_eq_true, if_false]
  rw [rowLoop_err_of_all out schema cols (i32ToUsize S) (i32ToUsize O) _ herr fetched
    _ hex]

/-- Witness for C2 (amended) at `chunk_size = chunk_overlap = 4`: both
the chunker and `chunk_table` fail with the validation error. -/
theorem c2_witness :
    chunk_text "abc" (i32ToUsize 4) (i32ToUsize 4) =
      .error (.chunkError "chunk_overlap must be smaller than chunk_size") ∧
    chunk_table sampleRowsShort [] "src" ["body"] 4 4 "out" "public" =
      .error (.chunkError "chunk_overlap must be smaller than chunk_size") :=
  ⟨(c2_overlap_validation 4 4 (by norm_num) le_rfl (by norm_num)).1 "abc",
   (c2_overlap_validation 4 4 (by norm_num) le_rfl (by norm_num)).2 sampleRowsShort []
     "src" ["body"] "out" "public" rfl
     ⟨⟨7, [("body", some "abc")]⟩, by simp [sampleRowsShort], "body", by simp, rfl⟩⟩

/-- Claim C4 (as stated, refuted): the created `original_id` column is
always `INTEGER`; for a source table whose primary key is of type
`TEXT`, the claimed layout (a reference type matching the source primary
key) differs from the created one. -/
theorem c4_counterexample :
    create_chunked_table [] "docs_chunked" ["body"] "public" =
      .ok [("public" ++ "." ++ "docs_chunked", ⟨chunkedTableColumns, []⟩)] ∧
    chunkedTableColumns ≠ claimedChunkedColumns .text :=
  ⟨rfl, by decide⟩

/-- Claim C4 (amended): `create_chunked_table(name, columns, schema)`
creates a table with exactly the columns `(id: surrogate serial key,
original_id: INTEGER — fixed, not matched to the source table's primary
key type — chunk: text)`, ignoring the `columns` argument, and fails
with a schema error when the table already exists. -/
theorem c4_create_chunked_table (st : PgState) (tname : String) (cols : List String)
    (schema : String) :
    (findTable st (schema ++ "." ++ tname) = none →
      create_chunked_table st tname cols schema =
        .ok ((schema ++ "." ++ tname, ⟨chunkedTableColumns, []⟩) :: st)) ∧
    (∀ T, findTable st (schema ++ "." ++ tname) = some T →
      create_chunked_table st tname cols schema =
        .error (.schemaError ("relation already exists: " ++ (schema ++ "." ++ tname)))) := by
  constructor
  · intro h
    simp [create_chunked_table, h]
  · intro T h
    simp [create_chunked_table, h]

/-- Witness for C4 (amended): creation on a fresh state succeeds with
the fixed three-column layout; re-creation on the same name fails. -/
theorem c4_witness :
    create_chunked_table [] "t" [] "public" =
      .ok [("public" ++ "." ++ "t", ⟨chunkedTableColumns, []⟩)] ∧
    create_chunked_table [("public.t", ⟨chunkedTableColumns, []⟩)] "t" [] "public" =
      .error (.schemaError ("relation already exists: " ++ ("public" ++ "." ++ "t"))) :=
  ⟨(c4_create_chunked_table [] "t" [] "public").1 rfl,
   (c4_create_chunked_table [("public.t", ⟨chunkedTableColumns, []⟩)] "t" [] "public").2
     ⟨chunkedTableColumns, []⟩ rfl⟩

/-- Claim C6: a successful `table(...)` call validated the transformer
model and persisted the Job via `init_table`; with `chunk_size` unset it
registered directly against the given source table, and with
`chunk_size` set it first ran the `chunk_table` provisioning path and
registered against the resulting chunked table. -/
theorem c6_table_paths
    (fetched : List Row) (mN : String → Except VErr Model)
    (iT : InitArgs → PgState → Except VErr (PgState × String)) (st : PgState)
    (tbl : String) (cols : List String) (jn pk sch uc : String)
    (idx : IndexDist) (tr : String) (csz cov : Option Int)
    (sa : SimilarityAlg) (tm : TableMethod) (sched : String)
    (r : PgState × String)
    (h : table fetched mN iT st tbl cols jn pk sch uc idx tr csz cov sa tm sched = .ok r) :
    ∃ m, mN tr = .ok m ∧
      ((csz = none ∧
        iT ⟨jn, sch, tbl, cols, pk, some uc, idx, m, tm, sched⟩ st = .ok r) ∨
       (∃ cs st1 cmsg, csz = some cs ∧
        chunk_table fetched st tbl cols cs (cov.getD 200) (tbl ++ "_chunked") sch =
          .ok (st1, cmsg) ∧
        iT ⟨jn, sch, tbl ++ "_chunked", cols, pk, some uc, idx, m, tm, sched⟩ st1 =
          .ok r)) := by
  cases csz with
  | none =>
    simp only [table] at h
    split at h
    next e hm => cases h
    next m hm => exact ⟨m, hm, .inl ⟨rfl, h⟩⟩
  | some cs =>
    simp only [table] at h
    split at h
    next e hct => cases h
    next st1 pt hct =>
      split at hct
      next e2 hctin => cases hct
      next st1' snd hctin =>
        injection hct with hct
        rw [Prod.mk.injEq] at hct
        obtain ⟨h1, h2⟩ := hct
        subst h1
        subst h2
        split at h
        next e hm => cases h
        next m hm => exact ⟨m, hm, .inr ⟨cs, st1', snd, rfl, hctin, h⟩⟩

/-- Witness for C6 on the unchunked path, with a registrar echoing the
registered table name. -/
theorem c6_witness :
    ∃ m, okModelNew "all-MiniLM-L6-v2" = .ok m ∧
      (((none : Option Int) = none ∧
        echoInitTable ⟨"job", "public", "docs", ["body"], "id", some "last_updated_at",
          .pgv_hnsw_cosine, m, .join, "* * * * *"⟩ [] = .ok ([], "docs")) ∨
       (∃ cs st1 cmsg, (none : Option Int) = some cs ∧
        chunk_table [] [] "docs" ["body"] cs ((none : Option Int).getD 200)
          ("docs" ++ "_chunked") "public" = .ok (st1, cmsg) ∧
        echoInitTable ⟨"job", "public", "docs" ++ "_chunked", ["body"], "id",
          some "last_updated_at", .pgv_hnsw_cosine, m, .join, "* * * * *"⟩ st1 =
          .ok ([], "docs"))) :=
  c6_table_paths [] okModelNew echoInitTable [] "docs" ["body"] "job" "id" "public"
    "last_updated_at" .pgv_hnsw_cosine "all-MiniLM-L6-v2" none none
    .pgv_cosine_similarity .join "* * * * *" ([], "docs") rfl

/-- Claim C10: whenever `table(...)` is called with `chunk_size` set,
the derived table it creates and registers against is named by appending
`"_chunked"` to the source table name, and an unset `chunk_overlap`
defaults to 200 on this path. -/
theorem c10_chunked_name_default
    (fetched : List Row) (mN : String → Except VErr Model)
    (iT : InitArgs → PgState → Except VErr (PgState × String)) (st : PgState)
    (tbl : String) (cols : List String) (jn pk sch uc : String)
    (idx : IndexDist) (tr : String) (cs : Int) (cov : Option Int)
    (sa : SimilarityAlg) (tm : TableMethod) (sched : String) :
    (table fetched mN iT st tbl cols jn pk sch uc idx tr (some cs) none sa tm sched =
     table fetched mN iT st tbl cols jn pk sch uc idx tr (some cs) (some 200) sa tm
       sched) ∧
    (∀ r, table fetched mN iT st tbl cols jn pk sch uc idx tr (some cs) cov sa tm
        sched = .ok r →
      ∃ st1 cmsg m,
        chunk_table fetched st tbl cols cs (cov.getD 200) (tbl ++ "_chunked") sch =
          .ok (st1, cmsg) ∧
        (findTable st1 (sch ++ "." ++ (tbl ++ "_chunked"))).isSome = true ∧
        mN tr = .ok m ∧
        iT ⟨jn, sch, tbl ++ "_chunked", cols, pk, some uc, idx, m, tm, sched⟩ st1 =
          .ok r) := by
  constructor
  · rfl
  · intro r h
    simp only [table] at h
    split at h
    next e hct => cases h
    next st1 pt hct =>
      split at hct
      next e2 hctin => cases hct
      next st1' snd hctin =>
        injection hct with hct
        rw [Prod.mk.injEq] at hct
        obtain ⟨h1, h2⟩ := hct
        subst h1
        subst h2
        split at h
        next e hm => cases h
        next m hm =>
          refine ⟨st1', snd, m, hctin, ?_, hm, h⟩
          obtain ⟨hfind, -⟩ := chunk_table_ok_spec fetched st tbl cols cs (cov.getD 200)
            (tbl ++ "_chunked") sch st1' snd hctin
          rw [hfind]
          rfl

/-- Witness for C10 at a concrete chunked invocation with
`chunk_overlap` unset. -/
theorem c10_witness :
    (table [] okModelNew echoInitTable [] "docs" ["body"] "job" "id" "public"
       "last_updated_at" .pgv_hnsw_cosine "tr" (some 4) none .pgv_cosine_similarity
       .join "* * * * *" =
     table [] okModelNew echoInitTable [] "docs" ["body"] "job" "id" "public"
       "last_updated_at" .pgv_hnsw_cosine "tr" (some 4) (some 200)
       .pgv_cosine_similarity .join "* * * * *") ∧
    (∃ st1 cmsg m,
      chunk_table [] [] "docs" ["body"] 4 ((none : Option Int).getD 200)
        ("docs" ++ "_chunked") "public" = .ok (st1, cmsg) ∧
      (findTable st1 ("public" ++ "." ++ ("docs" ++ "_chunked"))).isSome = true ∧
      okModelNew "tr" = .ok m ∧
      echoInitTable ⟨"job", "public", "docs" ++ "_chunked", ["body"], "id",
        some "last_updated_at", .pgv_hnsw_cosine, m, .join, "* * * * *"⟩ st1 =
        .ok ([("public.docs_chunked", ⟨chunkedTableColumns, []⟩)],
          "docs" ++ "_chunked")) :=
  ⟨(c10_chunked_name_default [] okModelNew echoInitTable [] "docs" ["body"] "job" "id"
      "public" "last_updated_at" .pgv_hnsw_cosine "tr" 4 none .pgv_cosine_similarity
      .join "* * * * *").1,
   (c10_chunked_name_default [] okModelNew echoInitTable [] "docs" ["body"] "job" "id"
      "public" "last_updated_at" .pgv_hnsw_cosine "tr" 4 none .pgv_cosine_similarity
      .join "* * * * *").2
     ([("public.docs_chunked", ⟨chunkedTableColumns, []⟩)], "docs" ++ "_chunked") rfl⟩

end PgVectorize
